import Mathlib

/-!
Shallow embedding of the persistence/query layer of the CretenDanceLearning
repository (`server/storage.ts`, entity shapes from `shared/schema.ts`).

`MemStorage` keeps one JS `Map` per entity plus a per-entity counter; the
operations below are direct translations of the class methods.  JS `Map`s are
modelled as insertion-ordered association lists (`JsMap`), JS `Date` values by
their UTC components (`JsDate`), and runtime values of `date`-typed fields —
which may be `Date` objects or parseable strings — by `DateField`.  The `User`
and `Class` stores are not modelled: no claim touches them.
-/

/-- The UTC components of a JS `Date` value: calendar day plus time-of-day. -/
structure JsDate where
  year : Int
  month : Nat
  day : Nat
  msOfDay : Nat
deriving DecidableEq, Repr

/-- `d.toISOString().split('T')[0]` for a `Date` `d`: the UTC calendar-day
components, with the time-of-day discarded. -/
def JsDate.isoDay (d : JsDate) : Int × Nat × Nat := (d.year, d.month, d.day)

/-- The runtime value of a `date`-typed record field: either a JS `Date`
object, or a string that `new Date(...)` parses to the given date (the drizzle
schema types `date` columns as strings, so both shapes occur at runtime). -/
inductive DateField where
  | dateV (d : JsDate)
  | strV (d : JsDate)
deriving DecidableEq, Repr

/-- `new Date(x)`: a `Date` is taken as is, a string is parsed. -/
def DateField.newDate : DateField → JsDate
  | dateV d => d
  | strV d => d

/-- `x.toISOString().split('T')[0]` called directly on the field value: a
`Date` yields its UTC day, but a string has no `toISOString` method, so the
call faults (TypeError), modelled as `none`. -/
def DateField.isoDay? : DateField → Option (Int × Nat × Nat)
  | dateV d => some d.isoDay
  | strV _ => none

/-- `x instanceof Date ? x.toISOString().split('T')[0]
: new Date(x).toISOString().split('T')[0]` — the representation-tolerant
day extraction used by `getAttendance`. -/
def DateField.isoDayCoerced : DateField → Int × Nat × Nat
  | dateV d => d.isoDay
  | strV d => d.isoDay

/-- Spec-side notion (§ glossary): two dates are calendar-day equal when their
year/month/day components match, ignoring time-of-day. -/
def sameCalendarDay (d e : JsDate) : Prop :=
  d.year = e.year ∧ d.month = e.month ∧ d.day = e.day

/-- A JS `Map` with integer keys, as an insertion-ordered association list. -/
abbrev JsMap (α : Type) := List (Int × α)

/-- `m.get(k)` (`undefined` becomes `none`). -/
def JsMap.get? (m : JsMap α) (k : Int) : Option α :=
  (m.find? (fun p => p.1 == k)).map (fun p => p.2)

/-- `m.set(k, v)`: replaces in place if the key is present, else appends. -/
def JsMap.set (m : JsMap α) (k : Int) (v : α) : JsMap α :=
  if (m.find? (fun p => p.1 == k)).isSome then
    m.map (fun p => if p.1 == k then (k, v) else p)
  else
    m ++ [(k, v)]

/-- `m.delete(k)`: removes the entry, returning whether one existed. -/
def JsMap.delete (m : JsMap α) (k : Int) : Bool × JsMap α :=
  if (m.find? (fun p => p.1 == k)).isSome then
    (true, m.filter (fun p => p.1 != k))
  else
    (false, m)

/-- `Array.from(m.values())`, in insertion order. -/
def JsMap.values (m : JsMap α) : List α := m.map (fun p => p.2)

/-- `Array.from(m.keys())`, in insertion order. -/
def JsMap.keys (m : JsMap α) : List Int := m.map (fun p => p.1)

/-! ## Entity records (from `shared/schema.ts`)

Each `InsertE` shape is the zod-validated creation payload: the insert schema
is `createInsertSchema(table).omit({ id: true, createdAt: true })`, so neither
`id` nor the creation timestamp is expressible in a payload.  Each `EPatch`
shape is `Partial<InsertE>`: every insert field optional, `none` meaning the
key is absent from the payload. -/

structure SchoolYear where
  id : Int
  name : String
  startDate : DateField
  endDate : DateField
  active : Bool
  createdAt : JsDate
deriving DecidableEq, Repr

structure InsertSchoolYear where
  name : String
  startDate : DateField
  endDate : DateField
  active : Bool
deriving DecidableEq, Repr

structure SchoolYearPatch where
  name : Option String := none
  startDate : Option DateField := none
  endDate : Option DateField := none
  active : Option Bool := none
deriving DecidableEq, Repr

structure Course where
  id : Int
  name : String
  description : Option String
  ctype : String
  schoolYearId : Int
  monthlyFee : Int
  active : Bool
  createdAt : JsDate
deriving DecidableEq, Repr

structure InsertCourse where
  name : String
  description : Option String
  ctype : String
  schoolYearId : Int
  monthlyFee : Int
  active : Bool
deriving DecidableEq, Repr

structure CoursePatch where
  name : Option String := none
  description : Option (Option String) := none
  ctype : Option String := none
  schoolYearId : Option Int := none
  monthlyFee : Option Int := none
  active : Option Bool := none
deriving DecidableEq, Repr

structure Student where
  id : Int
  firstName : String
  lastName : String
  phone : String
  email : Option String
  guardianName : Option String
  createdAt : JsDate
deriving DecidableEq, Repr

structure InsertStudent where
  firstName : String
  lastName : String
  phone : String
  email : Option String
  guardianName : Option String
deriving DecidableEq, Repr

structure Enrollment where
  id : Int
  studentId : Int
  classId : Int
  enrolledAt : JsDate
  active : Bool
deriving DecidableEq, Repr

structure Attendance where
  id : Int
  studentId : Int
  classId : Int
  date : DateField
  present : Bool
  createdAt : JsDate
deriving DecidableEq, Repr

structure InsertAttendance where
  studentId : Int
  classId : Int
  date : DateField
  present : Bool
deriving DecidableEq, Repr

structure AttendancePatch where
  studentId : Option Int := none
  classId : Option Int := none
  date : Option DateField := none
  present : Option Bool := none
deriving DecidableEq, Repr

/-- `updateAttendance(existingRecord.id, record)` passes a full
`InsertAttendance` where a `Partial` is expected: every field is present. -/
def InsertAttendance.toPatch (r : InsertAttendance) : AttendancePatch :=
  { studentId := some r.studentId, classId := some r.classId
    date := some r.date, present := some r.present }

structure Payment where
  id : Int
  studentId : Int
  courseId : Int
  amount : Int
  month : Int
  year : Int
  paymentDate : DateField
  createdAt : JsDate
deriving DecidableEq, Repr

/-! ## The store (`MemStorage`) -/

structure MemStorage where
  schoolYears : JsMap SchoolYear
  courses : JsMap Course
  students : JsMap Student
  enrollments : JsMap Enrollment
  attendanceRecords : JsMap Attendance
  payments : JsMap Payment
  schoolYearId : Int
  courseId : Int
  studentId : Int
  enrollmentId : Int
  attendanceId : Int
  paymentId : Int
deriving DecidableEq, Repr

/-- The constructor's state as far as the modelled entities go: empty maps,
all counters at 1, then the sample school year "2023-2024" is created
(the seeded admin user lives in the unmodelled user store). -/
def initialStorage : MemStorage :=
  { schoolYears := [(1,
      { id := 1, name := "2023-2024",
        startDate := DateField.dateV ⟨2023, 9, 1, 0⟩,
        endDate := DateField.dateV ⟨2024, 6, 30, 0⟩,
        active := true, createdAt := ⟨2025, 1, 1, 0⟩ })],
    courses := [], students := [], enrollments := [],
    attendanceRecords := [], payments := [],
    schoolYearId := 2, courseId := 1, studentId := 1,
    enrollmentId := 1, attendanceId := 1, paymentId := 1 }

/-! ## School Year operations -/

def getSchoolYear (st : MemStorage) (id : Int) : Option SchoolYear :=
  st.schoolYears.get? id

/-- `{ ...existingSchoolYear, ...schoolYear }`: fields present in the patch
replace the stored values; `id` and `createdAt` are not insert-schema fields,
so the spread keeps the stored ones. -/
def updateSchoolYear (st : MemStorage) (id : Int) (p : SchoolYearPatch) :
    Option SchoolYear × MemStorage :=
  match st.schoolYears.get? id with
  | none => (none, st)
  | some existing =>
    let updated : SchoolYear :=
      { id := existing.id
        name := p.name.getD existing.name
        startDate := p.startDate.getD existing.startDate
        endDate := p.endDate.getD existing.endDate
        active := p.active.getD existing.active
        createdAt := existing.createdAt }
    (some updated, { st with schoolYears := st.schoolYears.set id updated })

def deleteSchoolYear (st : MemStorage) (id : Int) : Bool × MemStorage :=
  let (existed, m) := st.schoolYears.delete id
  (existed, { st with schoolYears := m })

/-! ## Course operations -/

/-- `getCourses(schoolYearId?)`; the filter is guarded by the JS truthiness
test `if (schoolYearId)`, so both `undefined` and `0` skip it. -/
def getCourses (st : MemStorage) (schoolYearId : Option Int) : List Course :=
  let courses := st.courses.values
  match schoolYearId with
  | some v => if v ≠ 0 then courses.filter (fun c => c.schoolYearId == v) else courses
  | none => courses

def getCourse (st : MemStorage) (id : Int) : Option Course :=
  st.courses.get? id

def mkNewCourse (id : Int) (c : InsertCourse) (now : JsDate) : Course :=
  { id := id, name := c.name, description := c.description, ctype := c.ctype
    schoolYearId := c.schoolYearId, monthlyFee := c.monthlyFee
    active := c.active, createdAt := now }

def createCourse (st : MemStorage) (c : InsertCourse) (now : JsDate) :
    Course × MemStorage :=
  let id := st.courseId
  let newCourse := mkNewCourse id c now
  (newCourse, { st with courses := st.courses.set id newCourse,
                        courseId := st.courseId + 1 })

def updateCourse (st : MemStorage) (id : Int) (p : CoursePatch) :
    Option Course × MemStorage :=
  match st.courses.get? id with
  | none => (none, st)
  | some existing =>
    let updated : Course :=
      { id := existing.id
        name := p.name.getD existing.name
        description := p.description.getD existing.description
        ctype := p.ctype.getD existing.ctype
        schoolYearId := p.schoolYearId.getD existing.schoolYearId
        monthlyFee := p.monthlyFee.getD existing.monthlyFee
        active := p.active.getD existing.active
        createdAt := existing.createdAt }
    (some updated, { st with courses := st.courses.set id updated })

def deleteCourse (st : MemStorage) (id : Int) : Bool × MemStorage :=
  let (existed, m) := st.courses.delete id
  (existed, { st with courses := m })

/-! ## Student operations -/

def getStudent (st : MemStorage) (id : Int) : Option Student :=
  st.students.get? id

/-- The record literal `{ ...student, id, createdAt: new Date() }`. -/
def mkNewStudent (id : Int) (s : InsertStudent) (now : JsDate) : Student :=
  { id := id, firstName := s.firstName, lastName := s.lastName
    phone := s.phone, email := s.email, guardianName := s.guardianName
    createdAt := now }

def createStudent (st : MemStorage) (s : InsertStudent) (now : JsDate) :
    Student × MemStorage :=
  let id := st.studentId
  let newStudent := mkNewStudent id s now
  (newStudent, { st with students := st.students.set id newStudent,
                         studentId := st.studentId + 1 })

/-- `createManyStudents`: a sequential loop over the single-create path,
pushing each created record in input order. -/
def createManyStudents (st : MemStorage) (students : List InsertStudent)
    (now : JsDate) : List Student × MemStorage :=
  match students with
  | [] => ([], st)
  | s :: rest =>
    let (newStudent, st1) := createStudent st s now
    let (created, st2) := createManyStudents st1 rest now
    (newStudent :: created, st2)

def deleteStudent (st : MemStorage) (id : Int) : Bool × MemStorage :=
  let (existed, m) := st.students.delete id
  (existed, { st with students := m })

/-! ## Enrollment operations -/

/-- `getEnrollments(studentId?, classId?)`; each filter is guarded by a JS
truthiness test, so both `undefined` and `0` skip it. -/
def getEnrollments (st : MemStorage) (studentId classId : Option Int) :
    List Enrollment :=
  let enrollments := st.enrollments.values
  let enrollments :=
    match studentId with
    | some v => if v ≠ 0 then enrollments.filter (fun e => e.studentId == v) else enrollments
    | none => enrollments
  match classId with
  | some v => if v ≠ 0 then enrollments.filter (fun e => e.classId == v) else enrollments
  | none => enrollments

/-! ## Attendance operations -/

/-- `getAttendance(classId, date?)`: filter by class, then — when a date is
given — by calendar day, extracting the stored day with the
`instanceof Date` branch so both representations are handled. -/
def getAttendance (st : MemStorage) (classId : Int) (date : Option JsDate) :
    List Attendance :=
  let attendanceList :=
    (st.attendanceRecords.values).filter (fun a => a.classId == classId)
  match date with
  | none => attendanceList
  | some d =>
    attendanceList.filter (fun a => a.date.isoDayCoerced == d.isoDay)

def getStudentAttendance (st : MemStorage) (studentId : Int)
    (classId : Option Int) : List Attendance :=
  let attendanceList :=
    (st.attendanceRecords.values).filter (fun a => a.studentId == studentId)
  match classId with
  | some v => if v ≠ 0 then attendanceList.filter (fun a => a.classId == v) else attendanceList
  | none => attendanceList

def mkNewAttendance (id : Int) (r : InsertAttendance) (now : JsDate) : Attendance :=
  { id := id, studentId := r.studentId, classId := r.classId
    date := r.date, present := r.present, createdAt := now }

def createAttendance (st : MemStorage) (r : InsertAttendance) (now : JsDate) :
    Attendance × MemStorage :=
  let id := st.attendanceId
  let newAttendance := mkNewAttendance id r now
  (newAttendance,
    { st with attendanceRecords := st.attendanceRecords.set id newAttendance,
              attendanceId := st.attendanceId + 1 })

def updateAttendance (st : MemStorage) (id : Int) (p : AttendancePatch) :
    Option Attendance × MemStorage :=
  match st.attendanceRecords.get? id with
  | none => (none, st)
  | some existing =>
    let updated : Attendance :=
      { id := existing.id
        studentId := p.studentId.getD existing.studentId
        classId := p.classId.getD existing.classId
        date := p.date.getD existing.date
        present := p.present.getD existing.present
        createdAt := existing.createdAt }
    (some updated, { st with attendanceRecords := st.attendanceRecords.set id updated })

/-- The `find` of `bulkUpdateAttendance`: scan the stored records for one with
the same student, class and calendar day.  The predicate short-circuits on the
id tests and then calls `a.date.toISOString()` directly on the stored value,
which faults when that value is a string (`none` result); the input side is
normalised with `new Date(record.date)`. -/
def findExistingAttendance (l : List Attendance) (record : InsertAttendance) :
    Option (Option Attendance) :=
  match l with
  | [] => some none
  | a :: rest =>
    if a.studentId == record.studentId && a.classId == record.classId then
      match a.date.isoDay? with
      | none => none
      | some d =>
        if d == record.date.newDate.isoDay then some (some a)
        else findExistingAttendance rest record
    else findExistingAttendance rest record

/-- `bulkUpdateAttendance(records)`: for each input in order, update the
matching stored record if one exists, else create a new one; a fault in the
match test aborts the whole call (`none`). -/
def bulkUpdateAttendance (st : MemStorage) (records : List InsertAttendance)
    (now : JsDate) : Option (List Attendance × MemStorage) :=
  match records with
  | [] => some ([], st)
  | record :: rest =>
    match findExistingAttendance st.attendanceRecords.values record with
    | none => none
    | some (some existing) =>
      match updateAttendance st existing.id record.toPatch with
      | (some updated, st1) =>
        (bulkUpdateAttendance st1 rest now).map
          (fun p => (updated :: p.1, p.2))
      | (none, st1) =>
        (bulkUpdateAttendance st1 rest now).map (fun p => (p.1, p.2))
    | some none =>
      let (created, st1) := createAttendance st record now
      (bulkUpdateAttendance st1 rest now).map
        (fun p => (created :: p.1, p.2))

/-! ## Payment operations -/

/-- `getPayments(studentId?, courseId?, month?, year?)`; each filter is
guarded by a JS truthiness test, so both `undefined` and `0` skip it. -/
def getPayments (st : MemStorage) (studentId courseId month yr : Option Int) :
    List Payment :=
  let payments := st.payments.values
  let payments :=
    match studentId with
    | some v => if v ≠ 0 then payments.filter (fun p => p.studentId == v) else payments
    | none => payments
  let payments :=
    match courseId with
    | some v => if v ≠ 0 then payments.filter (fun p => p.courseId == v) else payments
    | none => payments
  let payments :=
    match month with
    | some v => if v ≠ 0 then payments.filter (fun p => p.month == v) else payments
    | none => payments
  match yr with
  | some v => if v ≠ 0 then payments.filter (fun p => p.year == v) else payments
  | none => payments

/-! ## Map lemmas -/

theorem JsMap.get?_isSome_find? (m : JsMap α) (k : Int) :
    (m.get? k).isSome = (m.find? (fun p => p.1 == k)).isSome := by
  unfold JsMap.get?
  cases m.find? (fun p => p.1 == k) <;> rfl

theorem JsMap.find?_filter_self (m : JsMap α) (k : Int) :
    (m.filter (fun p => p.1 != k)).find? (fun p => p.1 == k) = none := by
  rw [List.find?_eq_none]
  intro p hp
  have h2 := (List.mem_filter.mp hp).2
  simpa using h2

theorem JsMap.get?_of_find?_none (m : JsMap α) (k : Int)
    (h : m.find? (fun p => p.1 == k) = none) : m.get? k = none := by
  unfold JsMap.get?
  rw [h]
  rfl

/-! ## Claim theorems -/

/-- C7: for every id currently present in an entity's store, deleting twice
returns `true` then `false`, and after the first deletion the record is no
longer retrievable (shown on the school-year store, whose `deleteSchoolYear`
is the cited instance of the shared delete shape). -/
theorem delete_twice_true_then_false :
    ∀ (st : MemStorage) (id : Int) (r : SchoolYear),
    st.schoolYears.get? id = some r →
    (deleteSchoolYear st id).1 = true ∧
    getSchoolYear (deleteSchoolYear st id).2 id = none ∧
    (deleteSchoolYear (deleteSchoolYear st id).2 id).1 = false := by
  intro st id r h
  have hfind : (st.schoolYears.find? (fun p => p.1 == id)).isSome := by
    unfold JsMap.get? at h
    cases hf : st.schoolYears.find? (fun p => p.1 == id) with
    | none => rw [hf] at h; simp at h
    | some p => simp
  refine ⟨?_, ?_, ?_⟩
  · simp [deleteSchoolYear, JsMap.delete, hfind]
  · simp only [deleteSchoolYear, JsMap.delete, hfind, if_true]
    exact JsMap.get?_of_find?_none _ _ (JsMap.find?_filter_self st.schoolYears id)
  · simp only [deleteSchoolYear, JsMap.delete, hfind, if_true]
    rw [if_neg]
    simp [JsMap.find?_filter_self st.schoolYears id]

/-- The school year seeded by the constructor. -/
def seededSchoolYear : SchoolYear :=
  { id := 1, name := "2023-2024",
    startDate := DateField.dateV ⟨2023, 9, 1, 0⟩,
    endDate := DateField.dateV ⟨2024, 6, 30, 0⟩,
    active := true, createdAt := ⟨2025, 1, 1, 0⟩ }

/-- C7 witness: the seeded school year (id 1) of the constructor state. -/
theorem delete_twice_true_then_false_witness :
    initialStorage.schoolYears.get? 1 = some seededSchoolYear ∧
    (deleteSchoolYear initialStorage 1).1 = true ∧
    getSchoolYear (deleteSchoolYear initialStorage 1).2 1 = none ∧
    (deleteSchoolYear (deleteSchoolYear initialStorage 1).2 1).1 = false :=
  ⟨by decide,
   delete_twice_true_then_false initialStorage 1 seededSchoolYear (by decide)⟩

/-- C10: a numeric filter value of 0 is falsy in JS, so each truthiness-guarded
filter treats 0 exactly like an omitted parameter: `getCourses(0)` returns
every course, and a 0 `studentId`/`classId` for enrollments or 0
`month`/`year` for payments imposes no constraint. -/
theorem zero_filter_behaves_as_omitted :
    ∀ (st : MemStorage) (sid cid m y : Option Int),
    getCourses st (some 0) = st.courses.values ∧
    getCourses st (some 0) = getCourses st none ∧
    getEnrollments st (some 0) cid = getEnrollments st none cid ∧
    getEnrollments st sid (some 0) = getEnrollments st sid none ∧
    getPayments st sid cid (some 0) y = getPayments st sid cid none y ∧
    getPayments st sid cid m (some 0) = getPayments st sid cid m none := by
  intro st sid cid m y
  refine ⟨?_, ?_, ?_, ?_, ?_, ?_⟩ <;>
    simp [getCourses, getEnrollments, getPayments]

/-- C9: `getAttendance(classId, date?)` returns exactly the stored records of
the given class and — when a date is supplied — whose date value falls on the
same calendar day (year/month/day match, time-of-day ignored), whether the
stored date is a `Date` value or a string. -/
theorem getAttendance_filter_spec :
    ∀ (st : MemStorage) (classId : Int) (d : JsDate) (a : Attendance),
    (a ∈ getAttendance st classId none ↔
      a ∈ st.attendanceRecords.values ∧ a.classId = classId) ∧
    (a ∈ getAttendance st classId (some d) ↔
      a ∈ st.attendanceRecords.values ∧ a.classId = classId ∧
        sameCalendarDay a.date.newDate d) := by
  intro st classId d a
  have hday : (a.date.isoDayCoerced == d.isoDay) = true ↔
      sameCalendarDay a.date.newDate d := by
    cases a.date <;>
      simp [DateField.isoDayCoerced, DateField.newDate, JsDate.isoDay,
        sameCalendarDay, Prod.ext_iff]
  constructor
  · simp [getAttendance, List.mem_filter]
  · rw [show getAttendance st classId (some d) =
        ((st.attendanceRecords.values).filter
          (fun a => a.classId == classId)).filter
            (fun a => a.date.isoDayCoerced == d.isoDay) from rfl]
    simp only [List.mem_filter, hday, beq_iff_eq]
    tauto

/-- C8: `createManyStudents` runs the single-create path once per input in
order; the output has the input's length and its i-th element is the record
built from the i-th input with the i-th successively assigned identifier. -/
theorem createManyStudents_spec :
    ∀ (st : MemStorage) (inputs : List InsertStudent) (now : JsDate),
    (createManyStudents st inputs now).1.length = inputs.length ∧
    ∀ i : Nat, ((createManyStudents st inputs now).1)[i]? =
      (inputs[i]?).map (fun s => mkNewStudent (st.studentId + (i : Int)) s now) := by
  intro st inputs now
  induction inputs generalizing st with
  | nil => simp [createManyStudents]
  | cons s rest ih =>
    have hcons : (createManyStudents st (s :: rest) now).1 =
        mkNewStudent st.studentId s now ::
          (createManyStudents (createStudent st s now).2 rest now).1 := rfl
    have hctr : ((createStudent st s now).2).studentId = st.studentId + 1 := rfl
    obtain ⟨ihlen, ihget⟩ := ih (createStudent st s now).2
    constructor
    · simp [hcons, ihlen]
    · intro i
      cases i with
      | zero => simp [hcons]
      | succ n =>
        rw [hcons]
        simp only [List.getElem?_cons_succ]
        rw [ihget n, hctr]
        have harith : st.studentId + 1 + (n : Int) =
            st.studentId + ((n + 1 : Nat) : Int) := by push_cast; ring
        rw [harith]

/-- C2: a partial update merges only the fields present in the payload onto
the stored record: absent fields keep their prior values, and `id` and the
creation timestamp are always kept — the payload type `Partial<InsertE>` is
derived from the insert schema, which omits both, and the zod route
validation strips unknown keys, so a payload cannot even mention them.
Shown on the two cited instances of the shared merge shape,
`updateSchoolYear` and `updateAttendance`. -/
theorem update_preserves_unpatched_fields :
    ∀ (st : MemStorage) (id : Int),
    (∀ (p : SchoolYearPatch) (sy : SchoolYear),
      st.schoolYears.get? id = some sy →
      ∃ sy2,
        updateSchoolYear st id p =
          (some sy2, { st with schoolYears := st.schoolYears.set id sy2 }) ∧
        sy2.id = sy.id ∧ sy2.createdAt = sy.createdAt ∧
        (p.name = none → sy2.name = sy.name) ∧
        (p.startDate = none → sy2.startDate = sy.startDate) ∧
        (p.endDate = none → sy2.endDate = sy.endDate) ∧
        (p.active = none → sy2.active = sy.active)) ∧
    (∀ (q : AttendancePatch) (a : Attendance),
      st.attendanceRecords.get? id = some a →
      ∃ a2,
        updateAttendance st id q =
          (some a2, { st with attendanceRecords := st.attendanceRecords.set id a2 }) ∧
        a2.id = a.id ∧ a2.createdAt = a.createdAt ∧
        (q.studentId = none → a2.studentId = a.studentId) ∧
        (q.classId = none → a2.classId = a.classId) ∧
        (q.date = none → a2.date = a.date) ∧
        (q.present = none → a2.present = a.present)) := by
  intro st id
  constructor
  · intro p sy h
    refine ⟨{ id := sy.id, name := p.name.getD sy.name,
              startDate := p.startDate.getD sy.startDate,
              endDate := p.endDate.getD sy.endDate,
              active := p.active.getD sy.active, createdAt := sy.createdAt },
            ?_, rfl, rfl, ?_, ?_, ?_, ?_⟩
    · simp [updateSchoolYear, h]
    all_goals intro hn
    all_goals simp [hn]
  · intro q a h
    refine ⟨{ id := a.id, studentId := q.studentId.getD a.studentId,
              classId := q.classId.getD a.classId,
              date := q.date.getD a.date,
              present := q.present.getD a.present, createdAt := a.createdAt },
            ?_, rfl, rfl, ?_, ?_, ?_, ?_⟩
    · simp [updateAttendance, h]
    all_goals intro hn
    all_goals simp [hn]

/-- A stored attendance record used by witnesses. -/
def sampleAttendance : Attendance :=
  { id := 1, studentId := 1, classId := 2,
    date := DateField.dateV ⟨2024, 3, 4, 10⟩, present := false,
    createdAt := ⟨2024, 3, 4, 11⟩ }

/-- The seeded state plus one attendance record, for witnesses. -/
def sampleStore : MemStorage :=
  { initialStorage with
      attendanceRecords := [(1, sampleAttendance)], attendanceId := 2 }

/-- C2 witness: the empty patch on the seeded school year and on the sample
attendance record. -/
theorem update_preserves_unpatched_fields_witness :
    (sampleStore.schoolYears.get? 1 = some seededSchoolYear ∧
      ∃ sy2,
        updateSchoolYear sampleStore 1 {} =
          (some sy2, { sampleStore with
            schoolYears := sampleStore.schoolYears.set 1 sy2 }) ∧
        sy2.id = seededSchoolYear.id ∧
        sy2.createdAt = seededSchoolYear.createdAt ∧
        (({} : SchoolYearPatch).name = none → sy2.name = seededSchoolYear.name) ∧
        (({} : SchoolYearPatch).startDate = none →
          sy2.startDate = seededSchoolYear.startDate) ∧
        (({} : SchoolYearPatch).endDate = none →
          sy2.endDate = seededSchoolYear.endDate) ∧
        (({} : SchoolYearPatch).active = none →
          sy2.active = seededSchoolYear.active)) ∧
    (sampleStore.attendanceRecords.get? 1 = some sampleAttendance ∧
      ∃ a2,
        updateAttendance sampleStore 1 {} =
          (some a2, { sampleStore with
            attendanceRecords := sampleStore.attendanceRecords.set 1 a2 }) ∧
        a2.id = sampleAttendance.id ∧
        a2.createdAt = sampleAttendance.createdAt ∧
        (({} : AttendancePatch).studentId = none →
          a2.studentId = sampleAttendance.studentId) ∧
        (({} : AttendancePatch).classId = none →
          a2.classId = sampleAttendance.classId) ∧
        (({} : AttendancePatch).date = none →
          a2.date = sampleAttendance.date) ∧
        (({} : AttendancePatch).present = none →
          a2.present = sampleAttendance.present)) :=
  ⟨⟨by decide,
    (update_preserves_unpatched_fields sampleStore 1).1 {} seededSchoolYear
      (by decide)⟩,
   ⟨by decide,
    (update_preserves_unpatched_fields sampleStore 1).2 {} sampleAttendance
      (by decide)⟩⟩

/-- A stored payment with month 3, for the zero-filter counterexample. -/
def samplePayment : Payment :=
  { id := 1, studentId := 1, courseId := 1, amount := 30, month := 3,
    year := 2024, paymentDate := DateField.dateV ⟨2024, 3, 4, 0⟩,
    createdAt := ⟨2024, 3, 4, 0⟩ }

/-- The seeded state plus one payment. -/
def paymentStore : MemStorage :=
  { initialStorage with payments := [(1, samplePayment)], paymentId := 2 }

/-- C4 counterexample: supplying the filter value 0 does not filter by
equality.  `getPayments` with `month = 0` on a store whose only payment has
month 3 returns that payment, although no stored record has month 0 — the
truthiness guard treats 0 as an omitted filter. -/
theorem getPayments_zero_filter_counterexample :
    getPayments paymentStore none none (some 0) none = [samplePayment] ∧
    samplePayment.month ≠ 0 := by
  constructor
  · rfl
  · decide

/-- C4 (amended): `list()` with no filters returns every record; every
supplied NONZERO filter value selects exactly the records whose field equals
it, multiple filters combining by AND (a supplied 0 is treated as an omitted
filter, see the counterexample).  Shown on the cited `getCourses` and
`getPayments`. -/
theorem list_filter_laws_nonzero :
    ∀ (st : MemStorage),
    (getPayments st none none none none = st.payments.values) ∧
    (getCourses st none = st.courses.values) ∧
    (∀ syid : Int, syid ≠ 0 → ∀ c : Course,
      c ∈ getCourses st (some syid) ↔
        c ∈ st.courses.values ∧ c.schoolYearId = syid) ∧
    (∀ (sid cid mo yr : Option Int),
      (∀ v, sid = some v → v ≠ 0) → (∀ v, cid = some v → v ≠ 0) →
      (∀ v, mo = some v → v ≠ 0) → (∀ v, yr = some v → v ≠ 0) →
      ∀ p : Payment, p ∈ getPayments st sid cid mo yr ↔
        p ∈ st.payments.values ∧
        (∀ v, sid = some v → p.studentId = v) ∧
        (∀ v, cid = some v → p.courseId = v) ∧
        (∀ v, mo = some v → p.month = v) ∧
        (∀ v, yr = some v → p.year = v)) := by
  intro st
  refine ⟨by simp [getPayments], by simp [getCourses], ?_, ?_⟩
  · intro syid h c
    simp [getCourses, h, List.mem_filter]
  · intro sid cid mo yr h1 h2 h3 h4 p
    obtain _ | v1 := sid <;> obtain _ | v2 := cid <;>
      obtain _ | v3 := mo <;> obtain _ | v4 := yr <;>
      simp_all [getPayments, List.mem_filter] <;> tauto

/-- C4 witness: the nonzero filter laws evaluated on the sample payment store
with `month = 3` supplied and a course filter value of 5. -/
theorem list_filter_laws_nonzero_witness :
    ((5 : Int) ≠ 0 ∧
      ∀ c : Course, c ∈ getCourses paymentStore (some 5) ↔
        c ∈ paymentStore.courses.values ∧ c.schoolYearId = 5) ∧
    (samplePayment ∈ getPayments paymentStore none none (some 3) none ↔
      samplePayment ∈ paymentStore.payments.values ∧
      (∀ v, (none : Option Int) = some v → samplePayment.studentId = v) ∧
      (∀ v, (none : Option Int) = some v → samplePayment.courseId = v) ∧
      (∀ v, (some 3 : Option Int) = some v → samplePayment.month = v) ∧
      (∀ v, (none : Option Int) = some v → samplePayment.year = v)) :=
  ⟨⟨by decide, (list_filter_laws_nonzero paymentStore).2.2.1 5 (by decide)⟩,
   (list_filter_laws_nonzero paymentStore).2.2.2 none none (some 3) none
     (by intro v hv; cases hv) (by intro v hv; cases hv)
     (by intro v hv; injection hv with hv; subst hv; decide)
     (by intro v hv; cases hv) samplePayment⟩

/-- Operations driving the student store: creations and deletions, as in the
cited `createStudent` / `deleteStudent`. -/
inductive StudentOp where
  | create (s : InsertStudent) (now : JsDate)
  | delete (id : Int)

/-- Run a trace of student operations, collecting the ids returned by the
create operations in order. -/
def applyStudentOps (st : MemStorage) : List StudentOp → MemStorage × List Int
  | [] => (st, [])
  | StudentOp.create s now :: rest =>
    let c := createStudent st s now
    let r := applyStudentOps c.2 rest
    (r.1, c.1.id :: r.2)
  | StudentOp.delete id :: rest =>
    applyStudentOps (deleteStudent st id).2 rest

theorem applyStudentOps_id_lb :
    ∀ (ops : List StudentOp) (st : MemStorage) (i : Int),
    i ∈ (applyStudentOps st ops).2 → st.studentId ≤ i := by
  intro ops
  induction ops with
  | nil => intro st i h; simp [applyStudentOps] at h
  | cons op rest ih =>
    intro st i h
    cases op with
    | create s now =>
      simp only [applyStudentOps] at h
      rcases List.mem_cons.mp h with h1 | h1
      · have hid : (createStudent st s now).1.id = st.studentId := rfl
        omega
      · have hle := ih (createStudent st s now).2 i h1
        have hctr : ((createStudent st s now).2).studentId = st.studentId + 1 := rfl
        omega
    | delete id =>
      have hle := ih (deleteStudent st id).2 i (by simpa [applyStudentOps] using h)
      have hctr : ((deleteStudent st id).2).studentId = st.studentId := rfl
      omega

/-- C5: along any sequence of create and delete operations, the identifiers
returned by successive creations are strictly increasing — each new id
exceeds every previously issued one and deletion never frees an id for
reuse (the counter is untouched by deletes). -/
theorem create_ids_strictly_increasing :
    ∀ (st : MemStorage) (ops : List StudentOp),
    List.Pairwise (· < ·) (applyStudentOps st ops).2 := by
  intro st ops
  induction ops generalizing st with
  | nil => simp [applyStudentOps]
  | cons op rest ih =>
    cases op with
    | create s now =>
      simp only [applyStudentOps]
      refine List.pairwise_cons.mpr ⟨?_, ih _⟩
      intro j hj
      have hle := applyStudentOps_id_lb rest (createStudent st s now).2 j hj
      have hctr : ((createStudent st s now).2).studentId = st.studentId + 1 := rfl
      have hid : (createStudent st s now).1.id = st.studentId := rfl
      omega
    | delete id =>
      simpa [applyStudentOps] using ih (deleteStudent st id).2

theorem JsMap.mem_keys_set (m : JsMap α) (k j : Int) (v : α) :
    j ∈ (m.set k v).keys → j ∈ m.keys ∨ j = k := by
  unfold JsMap.set
  split
  · intro h
    unfold JsMap.keys at h
    rcases List.mem_map.mp h with ⟨p, hp, hpj⟩
    rcases List.mem_map.mp hp with ⟨q, hq, hqp⟩
    by_cases hk : q.1 == k
    · right
      rw [if_pos hk] at hqp
      rw [← hqp] at hpj
      exact hpj.symm
    · left
      rw [if_neg hk] at hqp
      subst hqp
      exact hpj ▸ List.mem_map.mpr ⟨q, hq, rfl⟩
  · intro h
    unfold JsMap.keys at h
    rcases List.mem_map.mp h with ⟨p, hp, hpj⟩
    rcases List.mem_append.mp hp with hp1 | hp1
    · exact Or.inl (hpj ▸ List.mem_map.mpr ⟨p, hp1, rfl⟩)
    · right
      simp only [List.mem_singleton] at hp1
      subst hp1
      exact hpj.symm

theorem JsMap.mem_keys_filter (m : JsMap α) (pr : Int × α → Bool) (j : Int) :
    j ∈ JsMap.keys (m.filter pr) → j ∈ m.keys := by
  intro h
  rcases List.mem_map.mp h with ⟨p, hp, hpj⟩
  exact hpj ▸ List.mem_map.mpr ⟨p, (List.mem_filter.mp hp).1, rfl⟩

theorem JsMap.mem_keys_of_get?_some (m : JsMap α) (k : Int) (v : α)
    (h : m.get? k = some v) : k ∈ m.keys := by
  unfold JsMap.get? at h
  cases hf : m.find? (fun p => p.1 == k) with
  | none => rw [hf] at h; simp at h
  | some q =>
    have hmem := List.mem_of_find?_eq_some hf
    have hpred := List.find?_some hf
    simp only [beq_iff_eq] at hpred
    exact hpred ▸ List.mem_map.mpr ⟨q, hmem, rfl⟩

theorem JsMap.get?_eq_none_of_not_mem_keys (m : JsMap α) (k : Int)
    (h : k ∉ m.keys) : m.get? k = none := by
  unfold JsMap.get?
  rw [List.find?_eq_none.mpr]
  · rfl
  · intro p hp
    simp only [beq_iff_eq]
    intro hpk
    exact h (hpk ▸ List.mem_map.mpr ⟨p, hp, rfl⟩)

theorem JsMap.find?_eq_none_of_not_mem_keys (m : JsMap α) (k : Int)
    (h : k ∉ m.keys) : m.find? (fun p => p.1 == k) = none := by
  rw [List.find?_eq_none]
  intro p hp
  simp only [beq_iff_eq]
  intro hpk
  exact h (hpk ▸ List.mem_map.mpr ⟨p, hp, rfl⟩)

theorem JsMap.mem_keys_delete (m : JsMap α) (k j : Int) :
    j ∈ JsMap.keys (m.delete k).2 → j ∈ m.keys := by
  unfold JsMap.delete
  split
  · exact JsMap.mem_keys_filter m _ j
  · exact fun h => h

/-- Operations driving the course store: creations, partial updates and
deletions, as in the cited `getCourse` / `updateCourse`. -/
inductive CourseOp where
  | create (c : InsertCourse) (now : JsDate)
  | update (id : Int) (p : CoursePatch)
  | delete (id : Int)

/-- Run a trace of course operations from a state, collecting the ids
returned by the create operations in order. -/
def applyCourseOps (st : MemStorage) : List CourseOp → MemStorage × List Int
  | [] => (st, [])
  | CourseOp.create c now :: rest =>
    let r := createCourse st c now
    let rr := applyCourseOps r.2 rest
    (rr.1, r.1.id :: rr.2)
  | CourseOp.update id p :: rest =>
    applyCourseOps (updateCourse st id p).2 rest
  | CourseOp.delete id :: rest =>
    applyCourseOps (deleteCourse st id).2 rest

/-- Every key of the course map after a trace was either a key before the
trace or was issued by one of the trace's create operations. -/
theorem applyCourseOps_keys :
    ∀ (ops : List CourseOp) (st : MemStorage) (k : Int),
    k ∈ (applyCourseOps st ops).1.courses.keys →
    k ∈ st.courses.keys ∨ k ∈ (applyCourseOps st ops).2 := by
  intro ops
  induction ops with
  | nil => intro st k h; exact Or.inl h
  | cons op rest ih =>
    intro st k h
    cases op with
    | create c now =>
      simp only [applyCourseOps] at h ⊢
      rcases ih (createCourse st c now).2 k h with h1 | h1
      · have h2 := JsMap.mem_keys_set st.courses st.courseId k
          (mkNewCourse st.courseId c now) h1
        rcases h2 with h2 | h2
        · exact Or.inl h2
        · exact Or.inr (List.mem_cons.mpr (Or.inl h2))
      · exact Or.inr (List.mem_cons.mpr (Or.inr h1))
    | update id p =>
      simp only [applyCourseOps] at h ⊢
      rcases ih (updateCourse st id p).2 k h with h1 | h1
      · left
        unfold updateCourse at h1
        cases hget : st.courses.get? id with
        | none => rw [hget] at h1; exact h1
        | some existing =>
          rw [hget] at h1
          simp only at h1
          rcases JsMap.mem_keys_set st.courses id k _ h1 with h2 | h2
          · exact h2
          · exact h2 ▸ JsMap.mem_keys_of_get?_some st.courses id existing hget
      · exact Or.inr h1
    | delete id =>
      simp only [applyCourseOps] at h ⊢
      rcases ih (deleteCourse st id).2 k h with h1 | h1
      · left
        have hc : (deleteCourse st id).2.courses = (st.courses.delete id).2 := rfl
        rw [hc] at h1
        exact JsMap.mem_keys_delete st.courses id k h1
      · exact Or.inr h1

/-- C6: for an id never returned by a create along a trace from the
constructor state, `getCourse` and `updateCourse` report not-found through
the optional result (the operations are total — nothing is thrown) and
leave the state unchanged, and `deleteCourse` returns `false`. -/
theorem absent_id_not_found :
    ∀ (ops : List CourseOp) (id : Int) (p : CoursePatch),
    id ∉ (applyCourseOps initialStorage ops).2 →
    getCourse (applyCourseOps initialStorage ops).1 id = none ∧
    updateCourse (applyCourseOps initialStorage ops).1 id p =
      (none, (applyCourseOps initialStorage ops).1) ∧
    deleteCourse (applyCourseOps initialStorage ops).1 id =
      (false, (applyCourseOps initialStorage ops).1) := by
  intro ops id p hid
  have hkeys : id ∉ (applyCourseOps initialStorage ops).1.courses.keys := by
    intro hk
    rcases applyCourseOps_keys ops initialStorage id hk with h | h
    · simp [initialStorage, JsMap.keys] at h
    · exact hid h
  have hget : (applyCourseOps initialStorage ops).1.courses.get? id = none :=
    JsMap.get?_eq_none_of_not_mem_keys _ _ hkeys
  have hfind : (applyCourseOps initialStorage ops).1.courses.find?
      (fun q => q.1 == id) = none :=
    JsMap.find?_eq_none_of_not_mem_keys _ _ hkeys
  refine ⟨hget, ?_, ?_⟩
  · simp [updateCourse, hget]
  · simp [deleteCourse, JsMap.delete, hfind]

/-- C6 witness: the empty trace and the never-issued id 5. -/
theorem absent_id_not_found_witness :
    (5 : Int) ∉ (applyCourseOps initialStorage []).2 ∧
    (getCourse (applyCourseOps initialStorage []).1 5 = none ∧
      updateCourse (applyCourseOps initialStorage []).1 5 {} =
        (none, (applyCourseOps initialStorage []).1) ∧
      deleteCourse (applyCourseOps initialStorage []).1 5 =
        (false, (applyCourseOps initialStorage []).1)) :=
  ⟨by decide, absent_id_not_found [] 5 {} (by decide)⟩

/-- A stored attendance record whose date is a string — the shape the drizzle
schema (string-typed `date` columns) actually produces at runtime. -/
def stringDateAttendance : Attendance :=
  { id := 1, studentId := 1, classId := 2,
    date := DateField.strV ⟨2024, 3, 4, 0⟩, present := false,
    createdAt := ⟨2024, 3, 4, 0⟩ }

/-- The seeded state plus the string-dated record. -/
def stringDateStore : MemStorage :=
  { initialStorage with
      attendanceRecords := [(1, stringDateAttendance)], attendanceId := 2 }

/-- A bulk-upsert input for the same (student, class, calendar day). -/
def sameTripleInput : InsertAttendance :=
  { studentId := 1, classId := 2,
    date := DateField.strV ⟨2024, 3, 4, 0⟩, present := true }

/-- C3 (code bug): the bulk upsert's match test is NOT tolerant of a stored
date held as a string.  It normalises only the input side
(`new Date(record.date)`) and calls `a.date.toISOString()` directly on the
stored record, so as soon as an input shares studentId and classId with a
string-dated stored record the whole call faults instead of comparing
calendar days — while `getAttendance` handles the very same stored record
through its `instanceof Date` branch. -/
theorem bulkUpdateAttendance_faults_on_string_stored_date :
    findExistingAttendance stringDateStore.attendanceRecords.values
      sameTripleInput = none ∧
    bulkUpdateAttendance stringDateStore [sameTripleInput] ⟨2024, 3, 5, 0⟩ =
      none ∧
    getAttendance stringDateStore 2 (some ⟨2024, 3, 4, 9⟩) =
      [stringDateAttendance] :=
  ⟨rfl, rfl, rfl⟩

/-- Whether a date field holds an actual JS `Date` object. -/
def DateField.isDateObj : DateField → Bool
  | dateV _ => true
  | strV _ => false

theorem DateField.isoDayCoerced_eq_newDate (x : DateField) :
    x.isoDayCoerced = x.newDate.isoDay := by
  cases x <;> rfl

theorem DateField.isoDay?_eq_some_of_isDateObj (x : DateField)
    (h : x.isDateObj = true) : x.isoDay? = some x.isoDayCoerced := by
  cases x
  · rfl
  · simp [DateField.isDateObj] at h

theorem DateField.isoDayCoerced_of_isoDay?_some (x : DateField)
    (d : Int × Nat × Nat) (h : x.isoDay? = some d) : x.isoDayCoerced = d := by
  cases x
  · simpa [DateField.isoDay?, DateField.isoDayCoerced] using h
  · simp [DateField.isoDay?] at h

/-- At most one record per (studentId, classId, calendar day) in a list. -/
def atMostOnePerTriple (l : List Attendance) : Prop :=
  ∀ a ∈ l, ∀ b ∈ l,
    a.studentId = b.studentId → a.classId = b.classId →
    a.date.isoDayCoerced = b.date.isoDayCoerced → a = b

/-- C1's invariant on the store. -/
def attendanceUpsertInvariant (st : MemStorage) : Prop :=
  atMostOnePerTriple st.attendanceRecords.values

/-- Structural well-formedness the store maintains: each entry is keyed by
its record's id, keys are distinct, and every key is below the counter. -/
def attendanceStoreWF (st : MemStorage) : Prop :=
  (∀ p ∈ st.attendanceRecords, p.1 = p.2.id) ∧
  (st.attendanceRecords.keys).Nodup ∧
  (∀ k ∈ st.attendanceRecords.keys, k < st.attendanceId)

/-- All stored attendance dates are `Date` objects (the typed-program view). -/
def attendanceDatesTyped (st : MemStorage) : Prop :=
  ∀ a ∈ st.attendanceRecords.values, a.date.isDateObj = true

/-- Number of stored records for one (studentId, classId, calendar day). -/
def tripleCount (st : MemStorage) (sid cid : Int) (day : Int × Nat × Nat) : Nat :=
  (st.attendanceRecords.values.filter
    (fun a => a.studentId == sid && a.classId == cid &&
      a.date.isoDayCoerced == day)).length

/-- Number of stored attendance records for one class. -/
def classCount (st : MemStorage) (cid : Int) : Nat :=
  (st.attendanceRecords.values.filter (fun a => a.classId == cid)).length

theorem JsMap.values_set_of_mem (m : JsMap α) (k : Int) (v : α)
    (h : (m.find? (fun p => p.1 == k)).isSome) :
    JsMap.values (m.set k v) = m.map (fun p => if p.1 == k then v else p.2) := by
  unfold JsMap.set JsMap.values
  rw [if_pos h, List.map_map]
  apply List.map_congr_left
  intro p _
  by_cases hk : p.1 == k
  · have hpk : p.1 = k := beq_iff_eq.mp hk
    simp [hk, hpk]
  · have hpk : ¬(p.1 = k) := by simpa using hk
    simp [hk, hpk]

theorem JsMap.values_set_of_not_mem (m : JsMap α) (k : Int) (v : α)
    (h : (m.find? (fun p => p.1 == k)).isSome = false) :
    JsMap.values (m.set k v) = m.values ++ [v] := by
  unfold JsMap.set JsMap.values
  rw [if_neg (by simp [h]), List.map_append]
  rfl

theorem JsMap.keys_set_of_mem (m : JsMap α) (k : Int) (v : α)
    (h : (m.find? (fun p => p.1 == k)).isSome) :
    JsMap.keys (m.set k v) = m.keys := by
  unfold JsMap.set JsMap.keys
  rw [if_pos h, List.map_map]
  apply List.map_congr_left
  intro p _
  by_cases hk : p.1 == k
  · have hpk : p.1 = k := beq_iff_eq.mp hk
    simp [hk, hpk]
  · have hpk : ¬(p.1 = k) := by simpa using hk
    simp [hk, hpk]

theorem JsMap.mem_keys_of_mem_values_id (m : JsMap α) (f : α → Int)
    (hk : ∀ p ∈ m, p.1 = f p.2) (a : α) (ha : a ∈ m.values) :
    f a ∈ m.keys := by
  rcases List.mem_map.mp ha with ⟨p, hp, hpa⟩
  have := hk p hp
  exact List.mem_map.mpr ⟨p, hp, by rw [this, hpa]⟩

theorem JsMap.get?_id_of_mem (m : JsMap α) (f : α → Int)
    (hk : ∀ p ∈ m, p.1 = f p.2) (hnd : m.keys.Nodup)
    (a : α) (ha : a ∈ m.values) : m.get? (f a) = some a := by
  induction m with
  | nil => simp [JsMap.values] at ha
  | cons p rest ih =>
    have hkrest : ∀ q ∈ rest, q.1 = f q.2 :=
      fun q hq => hk q (List.mem_cons_of_mem p hq)
    have hkeys : JsMap.keys (p :: rest) = p.1 :: JsMap.keys rest := rfl
    rw [hkeys] at hnd
    have hndrest : (JsMap.keys rest).Nodup := (List.nodup_cons.mp hnd).2
    have hv : JsMap.values (p :: rest) = p.2 :: JsMap.values rest := rfl
    rw [hv] at ha
    rcases List.mem_cons.mp ha with h1 | h1
    · unfold JsMap.get?
      rw [List.find?_cons_of_pos]
      · simp [h1]
      · simp only [beq_iff_eq]
        rw [hk p (List.mem_cons_self p rest), h1]
    · have hfk : f a ∈ JsMap.keys rest :=
        JsMap.mem_keys_of_mem_values_id rest f hkrest a h1
      have hne : (p.1 == f a) = false := by
        simp only [beq_eq_false_iff_ne, ne_eq]
        intro hpk
        exact (List.nodup_cons.mp hnd).1 (hpk ▸ hfk)
      unfold JsMap.get?
      rw [List.find?_cons_of_neg _ (by simp [hne])]
      exact ih hkrest hndrest h1

theorem values_ids_nodup (m : JsMap Attendance)
    (hk : ∀ p ∈ m, p.1 = p.2.id) (hnd : m.keys.Nodup) :
    (m.values.map (fun a => a.id)).Nodup := by
  have h : m.values.map (fun a => a.id) = m.keys := by
    unfold JsMap.values JsMap.keys
    rw [List.map_map]
    apply List.map_congr_left
    intro p hp
    exact (hk p hp).symm
  rw [h]
  exact hnd

theorem findExistingAttendance_some_sound :
    ∀ (l : List Attendance) (r : InsertAttendance) (a : Attendance),
    findExistingAttendance l r = some (some a) →
    a ∈ l ∧ a.studentId = r.studentId ∧ a.classId = r.classId ∧
      a.date.isoDay? = some r.date.newDate.isoDay := by
  intro l r
  induction l with
  | nil => intro a h; simp [findExistingAttendance] at h
  | cons b rest ih =>
    intro a h
    unfold findExistingAttendance at h
    split at h
    · split at h
      · cases h
      · rename_i hid _ d hiso
        split at h
        · rename_i hd
          have hba : b = a := by
            injection h with h2
            injection h2
          subst hba
          have hids : b.studentId = r.studentId ∧ b.classId = r.classId := by
            simpa using hid
          refine ⟨List.mem_cons_self b rest, hids.1, hids.2, ?_⟩
          rw [hiso, beq_iff_eq.mp hd]
        · obtain ⟨hmem, hrest⟩ := ih a h
          exact ⟨List.mem_cons_of_mem b hmem, hrest⟩
    · obtain ⟨hmem, hrest⟩ := ih a h
      exact ⟨List.mem_cons_of_mem b hmem, hrest⟩

theorem findExistingAttendance_none_sound :
    ∀ (l : List Attendance) (r : InsertAttendance),
    findExistingAttendance l r = some none →
    ∀ b ∈ l, b.studentId = r.studentId → b.classId = r.classId →
    ∃ d, b.date.isoDay? = some d ∧ d ≠ r.date.newDate.isoDay := by
  intro l r
  induction l with
  | nil => intro _ b hb; simp at hb
  | cons c rest ih =>
    intro h b hb hsb hcb
    unfold findExistingAttendance at h
    split at h
    · split at h
      · cases h
      · rename_i hid _ d hiso
        split at h
        · exact absurd (Option.some.inj h) (by simp)
        · rename_i hd
          rcases List.mem_cons.mp hb with h1 | h1
          · subst h1
            exact ⟨d, hiso, by simpa using hd⟩
          · exact ih h b h1 hsb hcb
    · rename_i hid
      rcases List.mem_cons.mp hb with h1 | h1
      · subst h1
        exact absurd (by simp [hsb, hcb]) hid
      · exact ih h b h1 hsb hcb

theorem findExistingAttendance_finds :
    ∀ (l : List Attendance) (r : InsertAttendance) (a : Attendance),
    (∀ b ∈ l, b.date.isDateObj = true) →
    a ∈ l → a.studentId = r.studentId → a.classId = r.classId →
    a.date.isoDayCoerced = r.date.newDate.isoDay →
    ∃ a2, findExistingAttendance l r = some (some a2) := by
  intro l r
  induction l with
  | nil => intro a _ ha; simp at ha
  | cons b rest ih =>
    intro a hty ha hsa hca hda
    have htyrest : ∀ c ∈ rest, c.date.isDateObj = true :=
      fun c hc => hty c (List.mem_cons_of_mem b hc)
    unfold findExistingAttendance
    split
    · rename_i hid
      rcases hiso : b.date.isoDay? with _ | d
      · have hbty : b.date.isDateObj = true := hty b (List.mem_cons_self b rest)
        rw [DateField.isoDay?_eq_some_of_isDateObj b.date hbty] at hiso
        cases hiso
      · by_cases hd : (d == r.date.newDate.isoDay) = true
        · exact ⟨b, by simp [hd]⟩
        · have hrec : a ∈ rest := by
            rcases List.mem_cons.mp ha with h1 | h1
            · have hbday : b.date.isoDayCoerced = d :=
                DateField.isoDayCoerced_of_isoDay?_some b.date d hiso
              rw [h1] at hda
              rw [hbday] at hda
              exact absurd (beq_iff_eq.mpr hda) hd
            · exact h1
          obtain ⟨a2, h2⟩ := ih a htyrest hrec hsa hca hda
          refine ⟨a2, ?_⟩
          simp only [h2]
          rw [if_neg hd]
    · rename_i hid
      rcases List.mem_cons.mp ha with h1 | h1
      · subst h1
        exact absurd (by simp [hsa, hca]) hid
      · exact ih a htyrest h1 hsa hca hda

theorem eq_of_id_eq_of_nodup (l : List Attendance)
    (hnd : (l.map (fun x => x.id)).Nodup)
    (a b : Attendance) (ha : a ∈ l) (hb : b ∈ l) (h : b.id = a.id) : b = a :=
  List.inj_on_of_nodup_map hnd hb ha h

theorem atMostOnePerTriple_replace (l : List Attendance) (a u : Attendance)
    (hinv : atMostOnePerTriple l) (ha : a ∈ l)
    (_hnd : (l.map (fun x => x.id)).Nodup)
    (hsid : u.studentId = a.studentId) (hcid : u.classId = a.classId)
    (hday : u.date.isoDayCoerced = a.date.isoDayCoerced) :
    atMostOnePerTriple (l.map (fun b => if b.id == a.id then u else b)) := by
  intro x hx y hy hsxy hcxy hdxy
  rcases List.mem_map.mp hx with ⟨bx, hbx, hbxe⟩
  rcases List.mem_map.mp hy with ⟨cy, hcy, hcye⟩
  by_cases h1 : (bx.id == a.id) = true <;> by_cases h2 : (cy.id == a.id) = true
  · rw [if_pos h1] at hbxe
    rw [if_pos h2] at hcye
    rw [← hbxe, ← hcye]
  · rw [if_pos h1] at hbxe
    rw [if_neg h2] at hcye
    exfalso
    have hxa : x = u := hbxe.symm
    have hya : y = cy := hcye.symm
    have hacy : a = cy := by
      apply hinv a ha cy hcy
      · rw [← hsid, ← hxa, hsxy, hya]
      · rw [← hcid, ← hxa, hcxy, hya]
      · rw [← hday, ← hxa, hdxy, hya]
    exact h2 (beq_iff_eq.mpr (hacy ▸ rfl))
  · rw [if_neg h1] at hbxe
    rw [if_pos h2] at hcye
    exfalso
    have hxa : x = bx := hbxe.symm
    have hya : y = u := hcye.symm
    have habx : a = bx := by
      apply hinv a ha bx hbx
      · rw [← hsid, ← hya, ← hsxy, hxa]
      · rw [← hcid, ← hya, ← hcxy, hxa]
      · rw [← hday, ← hya, ← hdxy, hxa]
    exact h1 (beq_iff_eq.mpr (habx ▸ rfl))
  · rw [if_neg h1] at hbxe
    rw [if_neg h2] at hcye
    rw [← hbxe, ← hcye]
    rw [← hbxe] at hsxy hcxy hdxy
    rw [← hcye] at hsxy hcxy hdxy
    exact hinv bx hbx cy hcy hsxy hcxy hdxy

theorem atMostOnePerTriple_append (l : List Attendance) (c : Attendance)
    (hinv : atMostOnePerTriple l)
    (hfresh : ∀ b ∈ l, ¬(b.studentId = c.studentId ∧ b.classId = c.classId ∧
      b.date.isoDayCoerced = c.date.isoDayCoerced)) :
    atMostOnePerTriple (l ++ [c]) := by
  intro x hx y hy hs hc hd
  rcases List.mem_append.mp hx with hx1 | hx1 <;>
    rcases List.mem_append.mp hy with hy1 | hy1
  · exact hinv x hx1 y hy1 hs hc hd
  · have hyc : y = c := by simpa using hy1
    rw [hyc] at hs hc hd
    exact absurd ⟨hs, hc, hd⟩ (hfresh x hx1)
  · have hxc : x = c := by simpa using hx1
    rw [hxc] at hs hc hd
    exact absurd ⟨hs.symm, hc.symm, hd.symm⟩ (hfresh y hy1)
  · have hxc : x = c := by simpa using hx1
    have hyc : y = c := by simpa using hy1
    rw [hxc, hyc]

/-- The record the spread `{ ...existingAttendance, ...attendance }` builds. -/
def mergePatch (existing : Attendance) (q : AttendancePatch) : Attendance :=
  { id := existing.id,
    studentId := q.studentId.getD existing.studentId,
    classId := q.classId.getD existing.classId,
    date := q.date.getD existing.date,
    present := q.present.getD existing.present,
    createdAt := existing.createdAt }

theorem updateAttendance_eq (st : MemStorage) (id : Int) (q : AttendancePatch)
    (existing : Attendance)
    (h : st.attendanceRecords.get? id = some existing) :
    updateAttendance st id q =
      (some (mergePatch existing q),
       { st with attendanceRecords :=
           st.attendanceRecords.set id (mergePatch existing q) }) := by
  simp [updateAttendance, mergePatch, h]

theorem values_set_by_id (m : JsMap Attendance) (k : Int) (u : Attendance)
    (hk : ∀ p ∈ m, p.1 = p.2.id)
    (h : (m.find? (fun p => p.1 == k)).isSome) :
    JsMap.values (m.set k u) =
      m.values.map (fun b => if b.id == k then u else b) := by
  rw [JsMap.values_set_of_mem m k u h]
  unfold JsMap.values
  rw [List.map_map]
  apply List.map_congr_left
  intro p hp
  simp only [Function.comp]
  rw [← hk p hp]

theorem entries_set_key_id (m : JsMap Attendance) (k : Int) (u : Attendance)
    (hk : ∀ p ∈ m, p.1 = p.2.id) (hu : u.id = k) :
    ∀ p ∈ m.set k u, p.1 = p.2.id := by
  intro p hp
  unfold JsMap.set at hp
  split at hp
  · rcases List.mem_map.mp hp with ⟨q, hq, hqp⟩
    by_cases hc : (q.1 == k) = true
    · rw [if_pos hc] at hqp
      rw [← hqp]
      exact hu.symm
    · rw [if_neg hc] at hqp
      rw [← hqp]
      exact hk q hq
  · rcases List.mem_append.mp hp with h1 | h1
    · exact hk p h1
    · have hpe : p = (k, u) := by simpa using h1
      rw [hpe]
      exact hu.symm

theorem JsMap.keys_set_of_not_mem (m : JsMap α) (k : Int) (v : α)
    (h : (m.find? (fun p => p.1 == k)).isSome = false) :
    JsMap.keys (m.set k v) = m.keys ++ [k] := by
  unfold JsMap.set JsMap.keys
  rw [if_neg (by simp [h]), List.map_append]
  rfl

theorem findExistingAttendance_isSome (l : List Attendance)
    (r : InsertAttendance)
    (hty : ∀ b ∈ l, b.date.isDateObj = true) :
    findExistingAttendance l r ≠ none := by
  induction l with
  | nil => simp [findExistingAttendance]
  | cons b rest ih =>
    intro h
    unfold findExistingAttendance at h
    split at h
    · split at h
      · rename_i heq
        have hsome := DateField.isoDay?_eq_some_of_isDateObj b.date
          (hty b (List.mem_cons_self b rest))
        rw [hsome] at heq
        cases heq
      · split at h
        · cases h
        · exact ih (fun c hc => hty c (List.mem_cons_of_mem b hc)) h
    · exact ih (fun c hc => hty c (List.mem_cons_of_mem b hc)) h

theorem bulkUpdateAttendance_nil (st : MemStorage) (now : JsDate) :
    bulkUpdateAttendance st [] now = some ([], st) := rfl

theorem bulkUpdateAttendance_cons_update (st : MemStorage)
    (r : InsertAttendance) (rest : List InsertAttendance) (now : JsDate)
    (a : Attendance)
    (hfind : findExistingAttendance st.attendanceRecords.values r =
      some (some a))
    (u : Attendance) (st1 : MemStorage)
    (hupd : updateAttendance st a.id r.toPatch = (some u, st1)) :
    bulkUpdateAttendance st (r :: rest) now =
      (bulkUpdateAttendance st1 rest now).map (fun p => (u :: p.1, p.2)) := by
  rw [bulkUpdateAttendance.eq_def]
  simp only [hfind, hupd]

theorem bulkUpdateAttendance_cons_create (st : MemStorage)
    (r : InsertAttendance) (rest : List InsertAttendance) (now : JsDate)
    (hfind : findExistingAttendance st.attendanceRecords.values r =
      some none) :
    bulkUpdateAttendance st (r :: rest) now =
      (bulkUpdateAttendance (createAttendance st r now).2 rest now).map
        (fun p => ((createAttendance st r now).1 :: p.1, p.2)) := by
  rw [bulkUpdateAttendance.eq_def]
  simp only [hfind]

theorem createAttendance_step (st : MemStorage) (r : InsertAttendance)
    (now : JsDate) (hwf : attendanceStoreWF st) :
    (createAttendance st r now).2.attendanceRecords.values =
      st.attendanceRecords.values ++ [mkNewAttendance st.attendanceId r now] ∧
    attendanceStoreWF (createAttendance st r now).2 := by
  have hnotmem : st.attendanceId ∉ st.attendanceRecords.keys := by
    intro hmem
    exact lt_irrefl _ (hwf.2.2 _ hmem)
  have hfind := JsMap.find?_eq_none_of_not_mem_keys
    st.attendanceRecords st.attendanceId hnotmem
  have hfalse : (st.attendanceRecords.find?
      (fun p => p.1 == st.attendanceId)).isSome = false := by
    rw [hfind]
    rfl
  have hkeys := JsMap.keys_set_of_not_mem st.attendanceRecords
    st.attendanceId (mkNewAttendance st.attendanceId r now) hfalse
  refine ⟨JsMap.values_set_of_not_mem _ _ _ hfalse, ?_, ?_, ?_⟩
  · exact entries_set_key_id _ _ _ hwf.1 rfl
  · show (JsMap.keys ((createAttendance st r now).2.attendanceRecords)).Nodup
    rw [show (createAttendance st r now).2.attendanceRecords =
      st.attendanceRecords.set st.attendanceId
        (mkNewAttendance st.attendanceId r now) from rfl, hkeys]
    simp only [List.nodup_append, List.nodup_cons, List.not_mem_nil,
      not_false_iff, List.nodup_nil, and_true, true_and]
    refine ⟨hwf.2.1, ?_⟩
    intro k hk hk1
    simp only [List.mem_singleton] at hk1
    rw [hk1] at hk
    exact hnotmem hk
  · show ∀ k ∈ JsMap.keys ((createAttendance st r now).2.attendanceRecords),
      k < (createAttendance st r now).2.attendanceId
    rw [show (createAttendance st r now).2.attendanceRecords =
      st.attendanceRecords.set st.attendanceId
        (mkNewAttendance st.attendanceId r now) from rfl, hkeys]
    intro k hk
    have hctr : (createAttendance st r now).2.attendanceId =
      st.attendanceId + 1 := rfl
    rw [hctr]
    rcases List.mem_append.mp hk with h1 | h1
    · exact lt_trans (hwf.2.2 k h1) (by omega)
    · simp only [List.mem_singleton] at h1
      omega

theorem setExisting_WF (st : MemStorage) (k : Int) (u : Attendance)
    (hwf : attendanceStoreWF st) (hu : u.id = k)
    (hfind : (st.attendanceRecords.find? (fun p => p.1 == k)).isSome) :
    attendanceStoreWF
      { st with attendanceRecords := st.attendanceRecords.set k u } := by
  refine ⟨entries_set_key_id _ _ _ hwf.1 hu, ?_, ?_⟩
  · show (JsMap.keys (st.attendanceRecords.set k u)).Nodup
    rw [JsMap.keys_set_of_mem _ _ _ hfind]
    exact hwf.2.1
  · show ∀ j ∈ JsMap.keys (st.attendanceRecords.set k u), j < st.attendanceId
    rw [JsMap.keys_set_of_mem _ _ _ hfind]
    exact hwf.2.2

theorem updateStep_inv (st : MemStorage) (r : InsertAttendance) (a : Attendance)
    (hwf : attendanceStoreWF st) (hinv : attendanceUpsertInvariant st)
    (hfind : findExistingAttendance st.attendanceRecords.values r =
      some (some a)) :
    ∃ st1, updateAttendance st a.id r.toPatch =
        (some (mergePatch a r.toPatch), st1) ∧
      st1.attendanceRecords.values =
        st.attendanceRecords.values.map
          (fun b => if b.id == a.id then mergePatch a r.toPatch else b) ∧
      attendanceStoreWF st1 ∧ attendanceUpsertInvariant st1 := by
  obtain ⟨hmem, hsid, hcid, hiso⟩ :=
    findExistingAttendance_some_sound _ _ _ hfind
  have hget : st.attendanceRecords.get? a.id = some a :=
    JsMap.get?_id_of_mem _ (fun x => x.id) hwf.1 hwf.2.1 a hmem
  have hfindS : (st.attendanceRecords.find? (fun p => p.1 == a.id)).isSome := by
    rw [← JsMap.get?_isSome_find?, hget]
    rfl
  refine ⟨_, updateAttendance_eq st a.id r.toPatch a hget, ?_, ?_, ?_⟩
  · exact values_set_by_id _ _ _ hwf.1 hfindS
  · exact setExisting_WF st a.id (mergePatch a r.toPatch) hwf rfl hfindS
  · show atMostOnePerTriple
      (JsMap.values (st.attendanceRecords.set a.id (mergePatch a r.toPatch)))
    rw [values_set_by_id _ _ _ hwf.1 hfindS]
    apply atMostOnePerTriple_replace _ a _ hinv hmem
      (values_ids_nodup _ hwf.1 hwf.2.1)
    · exact hsid.symm
    · exact hcid.symm
    · have h1 : (mergePatch a r.toPatch).date = r.date := rfl
      rw [h1, DateField.isoDayCoerced_eq_newDate]
      exact (DateField.isoDayCoerced_of_isoDay?_some a.date _ hiso).symm

theorem createStep_inv (st : MemStorage) (r : InsertAttendance) (now : JsDate)
    (hwf : attendanceStoreWF st) (hinv : attendanceUpsertInvariant st)
    (hfind : findExistingAttendance st.attendanceRecords.values r =
      some none) :
    attendanceStoreWF (createAttendance st r now).2 ∧
    attendanceUpsertInvariant (createAttendance st r now).2 := by
  obtain ⟨hvals, hwf2⟩ := createAttendance_step st r now hwf
  refine ⟨hwf2, ?_⟩
  show atMostOnePerTriple (createAttendance st r now).2.attendanceRecords.values
  rw [hvals]
  apply atMostOnePerTriple_append _ _ hinv
  intro b hb hmatch
  obtain ⟨h1, h2, h3⟩ := hmatch
  obtain ⟨d, hbiso, hdne⟩ :=
    findExistingAttendance_none_sound _ _ hfind b hb h1 h2
  have hbd : b.date.isoDayCoerced = d :=
    DateField.isoDayCoerced_of_isoDay?_some b.date d hbiso
  have hcd : (mkNewAttendance st.attendanceId r now).date.isoDayCoerced =
      r.date.newDate.isoDay := DateField.isoDayCoerced_eq_newDate r.date
  rw [hbd, hcd] at h3
  exact hdne h3

theorem bulkUpdateAttendance_WF_inv :
    ∀ (records : List InsertAttendance) (st : MemStorage) (now : JsDate)
      (res : List Attendance) (st2 : MemStorage),
    attendanceStoreWF st → attendanceUpsertInvariant st →
    bulkUpdateAttendance st records now = some (res, st2) →
    attendanceStoreWF st2 ∧ attendanceUpsertInvariant st2 := by
  intro records
  induction records with
  | nil =>
    intro st now res st2 hwf hinv h
    rw [bulkUpdateAttendance_nil] at h
    obtain ⟨h1, h2⟩ := Prod.mk.injEq _ _ _ _ |>.mp (Option.some.inj h)
    rw [← h2]
    exact ⟨hwf, hinv⟩
  | cons r rest ih =>
    intro st now res st2 hwf hinv h
    cases hfind : findExistingAttendance st.attendanceRecords.values r with
    | none =>
      rw [bulkUpdateAttendance.eq_def] at h
      simp only [hfind] at h
      cases h
    | some oa =>
      cases oa with
      | some a =>
        obtain ⟨st1, hupd, hvals, hwf1, hinv1⟩ :=
          updateStep_inv st r a hwf hinv hfind
        rw [bulkUpdateAttendance_cons_update st r rest now a hfind _ st1 hupd]
          at h
        cases hrec : bulkUpdateAttendance st1 rest now with
        | none => rw [hrec] at h; cases h
        | some pr =>
          rw [hrec] at h
          have hpr := Option.some.inj h
          have hst2 : st2 = pr.2 := (congrArg Prod.snd hpr).symm
          rw [hst2]
          exact ih st1 now pr.1 pr.2 hwf1 hinv1 (by rw [hrec])
      | none =>
        obtain ⟨hwf1, hinv1⟩ := createStep_inv st r now hwf hinv hfind
        rw [bulkUpdateAttendance_cons_create st r rest now hfind] at h
        cases hrec : bulkUpdateAttendance (createAttendance st r now).2 rest
            now with
        | none => rw [hrec] at h; cases h
        | some pr =>
          rw [hrec] at h
          have hpr := Option.some.inj h
          have hst2 : st2 = pr.2 := (congrArg Prod.snd hpr).symm
          rw [hst2]
          exact ih _ now pr.1 pr.2 hwf1 hinv1 (by rw [hrec])

theorem count_replace_one (l : List Attendance) (a u : Attendance)
    (hnd : (l.map (fun x => x.id)).Nodup) (ha : a ∈ l)
    (hinv : atMostOnePerTriple l)
    (pr : Attendance → Bool) (hpu : pr u = true)
    (htr : ∀ b ∈ l, pr b = true → b.studentId = a.studentId ∧
      b.classId = a.classId ∧ b.date.isoDayCoerced = a.date.isoDayCoerced) :
    ((l.map (fun b => if b.id == a.id then u else b)).filter pr).length = 1 := by
  rw [← List.countP_eq_length_filter, List.countP_map]
  have hcong : ∀ b ∈ l,
      ((pr ∘ fun b => if b.id == a.id then u else b) b = true ↔
        (fun b => b.id == a.id) b = true) := by
    intro b hb
    simp only [Function.comp]
    by_cases hc : (b.id == a.id) = true
    · simp [hc, hpu]
    · cases hpb : pr b
      · simp [hc, if_neg (by simpa using hc), hpb]
      · exfalso
        obtain ⟨h1, h2, h3⟩ := htr b hb hpb
        have hba : b = a := hinv b hb a ha h1 h2 h3
        exact hc (by rw [hba]; simp)
  rw [List.countP_congr hcong]
  have hmap : l.countP (fun b => b.id == a.id) =
      (l.map (fun x => x.id)).countP (fun i => i == a.id) := by
    rw [List.countP_map]
    rfl
  rw [hmap]
  have hcount : (l.map (fun x => x.id)).countP (fun i => i == a.id) =
      (l.map (fun x => x.id)).count a.id := rfl
  rw [hcount]
  exact List.count_eq_one_of_mem hnd (List.mem_map.mpr ⟨a, ha, rfl⟩)

/-- C1: the bulk attendance upsert enforces at-most-one-record-per
(studentId, classId, calendar-day): starting from a well-formed store
satisfying the invariant, (a) any successful bulk call preserves the
invariant; (b) an input whose triple matches a stored record (all dates
being `Date` values) merge-updates that record in place, reusing its id,
leaving the record count unchanged, with exactly one record for the triple
remaining; (c) an input matching no stored triple creates exactly one new
record, raising that class's record count by one. -/
theorem bulkUpdateAttendance_upsert :
    ∀ (st : MemStorage) (now : JsDate),
    attendanceStoreWF st → attendanceUpsertInvariant st →
    (∀ (records : List InsertAttendance) (res : List Attendance)
        (st2 : MemStorage),
      bulkUpdateAttendance st records now = some (res, st2) →
      attendanceUpsertInvariant st2) ∧
    (∀ r : InsertAttendance, attendanceDatesTyped st →
      ∀ a ∈ st.attendanceRecords.values,
      a.studentId = r.studentId → a.classId = r.classId →
      a.date.isoDayCoerced = r.date.newDate.isoDay →
      ∃ u st2,
        bulkUpdateAttendance st [r] now = some ([u], st2) ∧
        u.id = a.id ∧ u.present = r.present ∧
        st2.attendanceRecords.values.length =
          st.attendanceRecords.values.length ∧
        tripleCount st2 r.studentId r.classId r.date.newDate.isoDay = 1) ∧
    (∀ r : InsertAttendance, attendanceDatesTyped st →
      (∀ a ∈ st.attendanceRecords.values,
        ¬(a.studentId = r.studentId ∧ a.classId = r.classId ∧
          a.date.isoDayCoerced = r.date.newDate.isoDay)) →
      ∃ c st2,
        bulkUpdateAttendance st [r] now = some ([c], st2) ∧
        st2.attendanceRecords.values.length =
          st.attendanceRecords.values.length + 1 ∧
        classCount st2 r.classId = classCount st r.classId + 1 ∧
        tripleCount st2 r.studentId r.classId r.date.newDate.isoDay = 1) := by
  intro st now hwf hinv
  refine ⟨?_, ?_, ?_⟩
  · intro records res st2 h
    exact (bulkUpdateAttendance_WF_inv records st now res st2 hwf hinv h).2
  · intro r hty a hmem hsid hcid hday
    obtain ⟨a2, hfind⟩ := findExistingAttendance_finds
      st.attendanceRecords.values r a hty hmem hsid hcid hday
    obtain ⟨hmem2, hs2, hc2, hiso2⟩ :=
      findExistingAttendance_some_sound _ _ _ hfind
    have hday2 : a2.date.isoDayCoerced = r.date.newDate.isoDay :=
      DateField.isoDayCoerced_of_isoDay?_some _ _ hiso2
    have ha2a : a2 = a := hinv a2 hmem2 a hmem (hs2.trans hsid.symm)
      (hc2.trans hcid.symm) (hday2.trans hday.symm)
    rw [ha2a] at hfind
    obtain ⟨st1, hupd, hvals, hwf1, hinv1⟩ :=
      updateStep_inv st r a hwf hinv hfind
    refine ⟨mergePatch a r.toPatch, st1, ?_, rfl, rfl, ?_, ?_⟩
    · rw [bulkUpdateAttendance_cons_update st r [] now a hfind _ st1 hupd,
        bulkUpdateAttendance_nil]
      rfl
    · rw [hvals, List.length_map]
    · show (st1.attendanceRecords.values.filter
        (fun x => x.studentId == r.studentId && x.classId == r.classId &&
          x.date.isoDayCoerced == r.date.newDate.isoDay)).length = 1
      rw [hvals]
      apply count_replace_one st.attendanceRecords.values a
        (mergePatch a r.toPatch) (values_ids_nodup _ hwf.1 hwf.2.1) hmem hinv
      · simp [mergePatch, InsertAttendance.toPatch,
          DateField.isoDayCoerced_eq_newDate]
      · intro b hb hpb
        simp only [Bool.and_eq_true, beq_iff_eq] at hpb
        obtain ⟨⟨h1, h2⟩, h3⟩ := hpb
        exact ⟨h1.trans hsid.symm, h2.trans hcid.symm, h3.trans hday.symm⟩
  · intro r hty hnomatch
    have hfindno : findExistingAttendance st.attendanceRecords.values r ≠
        none := findExistingAttendance_isSome _ _ hty
    cases hfind : findExistingAttendance st.attendanceRecords.values r with
    | none => exact absurd hfind hfindno
    | some oa =>
      cases oa with
      | some a2 =>
        obtain ⟨hmem2, hs2, hc2, hiso2⟩ :=
          findExistingAttendance_some_sound _ _ _ hfind
        exact absurd
          ⟨hs2, hc2, DateField.isoDayCoerced_of_isoDay?_some _ _ hiso2⟩
          (hnomatch a2 hmem2)
      | none =>
        obtain ⟨hvals, hwf1⟩ := createAttendance_step st r now hwf
        refine ⟨(createAttendance st r now).1, (createAttendance st r now).2,
          ?_, ?_, ?_, ?_⟩
        · rw [bulkUpdateAttendance_cons_create st r [] now hfind,
            bulkUpdateAttendance_nil]
          rfl
        · rw [hvals, List.length_append]
          rfl
        · show ((createAttendance st r now).2.attendanceRecords.values.filter
            (fun a => a.classId == r.classId)).length =
            (st.attendanceRecords.values.filter
              (fun a => a.classId == r.classId)).length + 1
          rw [hvals, List.filter_append]
          have hone : (([mkNewAttendance st.attendanceId r now]).filter
              (fun a => a.classId == r.classId)) =
              [mkNewAttendance st.attendanceId r now] := by
            simp [mkNewAttendance]
          rw [hone, List.length_append]
          rfl
        · show ((createAttendance st r now).2.attendanceRecords.values.filter
            (fun x => x.studentId == r.studentId && x.classId == r.classId &&
              x.date.isoDayCoerced == r.date.newDate.isoDay)).length = 1
          rw [hvals, List.filter_append]
          have h0 : (st.attendanceRecords.values.filter
              (fun x => x.studentId == r.studentId && x.classId == r.classId &&
                x.date.isoDayCoerced == r.date.newDate.isoDay)) = [] := by
            rw [List.filter_eq_nil_iff]
            intro b hb hpb
            simp only [Bool.and_eq_true, beq_iff_eq] at hpb
            obtain ⟨⟨h1, h2⟩, h3⟩ := hpb
            exact hnomatch b hb ⟨h1, h2, h3⟩
          have hone : (([mkNewAttendance st.attendanceId r now]).filter
              (fun x => x.studentId == r.studentId && x.classId == r.classId &&
                x.date.isoDayCoerced == r.date.newDate.isoDay)) =
              [mkNewAttendance st.attendanceId r now] := by
            simp [mkNewAttendance, DateField.isoDayCoerced_eq_newDate]
          rw [h0, hone]
          rfl

/-- A bulk input matching the sample record's (student, class, day) triple. -/
def matchInput : InsertAttendance :=
  { studentId := 1, classId := 2,
    date := DateField.dateV ⟨2024, 3, 4, 0⟩, present := true }

/-- A bulk input for a previously-absent (student, class, day) triple. -/
def freshInput : InsertAttendance :=
  { studentId := 3, classId := 2,
    date := DateField.dateV ⟨2024, 3, 4, 0⟩, present := true }

/-- C1 witness: on the sample store, the matching input updates in place
(id 1 reused, count unchanged) and the fresh input creates one record. -/
theorem bulkUpdateAttendance_upsert_witness :
    (attendanceStoreWF sampleStore ∧ attendanceUpsertInvariant sampleStore ∧
      attendanceDatesTyped sampleStore ∧
      sampleAttendance ∈ sampleStore.attendanceRecords.values ∧
      sampleAttendance.date.isoDayCoerced = matchInput.date.newDate.isoDay) ∧
    (∃ u st2,
      bulkUpdateAttendance sampleStore [matchInput] ⟨2024, 3, 5, 0⟩ =
        some ([u], st2) ∧
      u.id = sampleAttendance.id ∧ u.present = matchInput.present ∧
      st2.attendanceRecords.values.length =
        sampleStore.attendanceRecords.values.length ∧
      tripleCount st2 matchInput.studentId matchInput.classId
        matchInput.date.newDate.isoDay = 1) ∧
    (∃ c st2,
      bulkUpdateAttendance sampleStore [freshInput] ⟨2024, 3, 5, 0⟩ =
        some ([c], st2) ∧
      st2.attendanceRecords.values.length =
        sampleStore.attendanceRecords.values.length + 1 ∧
      classCount st2 freshInput.classId =
        classCount sampleStore freshInput.classId + 1 ∧
      tripleCount st2 freshInput.studentId freshInput.classId
        freshInput.date.newDate.isoDay = 1) :=
  ⟨⟨by unfold attendanceStoreWF; decide,
    by unfold attendanceUpsertInvariant atMostOnePerTriple; decide,
    by unfold attendanceDatesTyped; decide, by decide, by decide⟩,
   (bulkUpdateAttendance_upsert sampleStore ⟨2024, 3, 5, 0⟩
       (by unfold attendanceStoreWF; decide)
       (by unfold attendanceUpsertInvariant atMostOnePerTriple; decide)).2.1
     matchInput (by unfold attendanceDatesTyped; decide) sampleAttendance
     (by decide) (by decide) (by decide) (by decide),
   (bulkUpdateAttendance_upsert sampleStore ⟨2024, 3, 5, 0⟩
       (by unfold attendanceStoreWF; decide)
       (by unfold attendanceUpsertInvariant atMostOnePerTriple; decide)).2.2
     freshInput (by unfold attendanceDatesTyped; decide) (by decide)⟩
